import Mathlib

/-!
Verification of the least-squares orchestration layer of `ndarray-linalg`
(`src/least_squares.rs`): the three ownership-variant entry points
(`least_squares`, `least_squares_into`, `least_squares_in_place`) around the
external divide-and-conquer SVD solver (`*gelsd`), for a vector (`Ix1`) or
matrix (`Ix2`) right-hand side.

Modelling choices:
* a 2-D `ndarray` array is a logical list of rows together with its shape and
  the storage metadata the module inspects (layout tag, allocation flag);
* the external LAPACK kernel is an abstract parameter of the pipeline, since
  it is an external collaborator of the module under study; its in-place
  buffer overwrites are modelled by returning the new buffer contents;
* machine integers: the solver's rank is a Rust `i32`, modelled as `Int`,
  and the source's `rank as usize` cast is modelled explicitly modulo `2^64`;
* an out-of-bounds `ndarray` slice panics in Rust; the panic is made visible
  here as the distinguished outcome `SlicePanic`.
-/

namespace NdLinalg

/-- Storage order of a dense 2-D array: row-major (`C`) or column-major (`F`). -/
inductive MatrixLayout where
  | C : MatrixLayout
  | F : MatrixLayout
  deriving DecidableEq

/-- Errors of the linear-algebra layer (`crate::error::LinalgError`), restricted
to the conditions reachable from the least-squares module, plus `SlicePanic`,
which models an out-of-bounds `ndarray` slice panic (a process abort in Rust,
made visible here as a distinguished outcome, not a returned error value). -/
inductive LinalgError where
  | IncompatibleShape : LinalgError
  | MemoryNotCont : LinalgError
  | Lapack : Int → LinalgError
  | SlicePanic : LinalgError
  deriving DecidableEq

/-- Raw output of the external `*gelsd` solver (`LeastSquaresOutput` in
`lapack::least_squares`): the singular values, of the scalar's real type `R`,
and the numerical rank, an `i32`. -/
structure LeastSquaresOutput (R : Type) where
  singular_values : List R
  rank : Int
  deriving DecidableEq

/-- `LeastSquaresResult<E, Ix1>`: result of a solve against a single
right-hand-side vector. The solution is a vector and the conditional
residual sum of squares a single scalar. -/
structure LeastSquaresResultIx1 (R E : Type) where
  singular_values : List R
  solution : List E
  rank : Int
  residual_sum_of_squares : Option E
  deriving DecidableEq

/-- `LeastSquaresResult<E, Ix2>`: result of a solve against a `m × k`
right-hand-side matrix. The solution is a matrix (list of rows) and the
conditional residual sum of squares a length-`k` vector. -/
structure LeastSquaresResultIx2 (R E : Type) where
  singular_values : List R
  solution : List (List E)
  rank : Int
  residual_sum_of_squares : Option (List E)
  deriving DecidableEq

/-- Model of a 2-D `ndarray` array `ArrayBase<D, Ix2>` with scalar elements
`E`: shape `shape0 × shape1`, logical contents as a list of rows, and the
storage metadata the module inspects. `layoutTag` is `some l` when the array
exposes a contiguous row-major (`C`) or column-major (`F`) view and `none`
otherwise; `allocated` records whether the backing storage can be handed out
as a flat contiguous slice in that storage order. -/
structure MatState (E : Type) where
  shape0 : Nat
  shape1 : Nat
  rowsData : List (List E)
  layoutTag : Option MatrixLayout
  allocated : Bool
  deriving DecidableEq

/-- Model of a 1-D `ndarray` array `ArrayBase<D, Ix1>`: logical contents plus
whether the storage is contiguous in memory order. A 1-D array has no
row- or column-major orientation. -/
structure VecState (E : Type) where
  data : List E
  contiguous : Bool
  deriving DecidableEq

/-- Modelled from the spec: shape/layout introspection `self.layout()?` comes
from the `layout` module, which is not part of the least-squares source. Per
§4.1 the validator confirms a contiguous row-major or column-major storage
order and rejects mixed or non-contiguous layouts with the incompatible
shape/layout condition. -/
def MatState.layout {E : Type} (a : MatState E) : Except LinalgError MatrixLayout :=
  match a.layoutTag with
  | some l => .ok l
  | none => .error .IncompatibleShape

/-- The flat contiguous buffer of a matrix in the given storage order:
row-major concatenates the rows, column-major concatenates the columns. -/
def MatState.flatBuf {E : Type} [CommRing E] (a : MatState E) (l : MatrixLayout) : List E :=
  match l with
  | .C => a.rowsData.flatten
  | .F => (List.range a.shape1).flatMap (fun j => a.rowsData.map (fun r => r.getD j 0))

/-- Modelled from the spec: `as_allocated_mut()?` comes from the `layout`
module, which is not part of the least-squares source. Per §7, failure to
obtain A's or B's backing storage as a flat contiguous view in the validated
layout is the non-contiguous/unallocated-buffer condition, fatal for the
call; success hands out the flat buffer in the array's storage order. -/
def MatState.as_allocated_mut {E : Type} [CommRing E] (a : MatState E) :
    Except LinalgError (List E) :=
  if a.allocated then .ok (a.flatBuf (a.layoutTag.getD .C)) else .error .MemoryNotCont

/-- The `ndarray` call `as_slice_memory_order_mut()` on a 1-D array: the flat
data when the storage is contiguous, `None` otherwise (the caller maps `None`
to `LinalgError::MemoryNotCont`). -/
def VecState.as_slice_memory_order_mut {E : Type} (b : VecState E) : Option (List E) :=
  if b.contiguous then some b.data else none

/-- Modelled from the spec: §4.2, the borrowed solve "internally duplicates
both into owned buffers" via `ndarray`'s `to_owned`. The owned duplicate has
the same shape and logical contents and is fully allocated; a contiguous
source keeps its storage order and a non-contiguous source is copied into
row-major order. -/
def MatState.to_owned {E : Type} (a : MatState E) : MatState E :=
  match a.layoutTag with
  | some l => { a with layoutTag := some l, allocated := true }
  | none => { a with layoutTag := some .C, allocated := true }

/-- Owned duplicate of a 1-D array: same contents, contiguous storage. -/
def VecState.to_owned {E : Type} (b : VecState E) : VecState E :=
  { b with contiguous := true }

/-- Read back the logical rows of an `m × k` array from its flat buffer in the
given storage order. The in-place solver overwrites the flat buffer; the
array then views the same memory through its unchanged shape and strides. -/
def unflatten {E : Type} [CommRing E] (l : MatrixLayout) (m k : Nat) (buf : List E) :
    List (List E) :=
  match l with
  | .C => (List.range m).map (fun i => (buf.drop (i * k)).take k)
  | .F => (List.range m).map (fun i => (List.range k).map (fun j => buf.getD (j * m + i) 0))

/-- The Rust cast `rank as usize` for `rank : i32` on a 64-bit target:
sign-extend and reinterpret, i.e. reduce modulo `2^64`. -/
def i32_as_usize (r : Int) : Nat := (r % (2 : Int) ^ 64).toNat

/-- `compute_residual_scalar(m, n, rank, b)` from the source: `None` when
`m < n || n != rank as usize`, otherwise the entries of `b` from row `n` on
(`b.slice(s![n..])`), squared element-wise (`mapv(|x| x.powi(2))`) and
summed. -/
def compute_residual_scalar {E : Type} [CommRing E] (m n : Nat) (rank : Int)
    (b : VecState E) : Option E :=
  if m < n ∨ n ≠ i32_as_usize rank then none
  else some (((b.data.drop n).map (fun x => x ^ 2)).sum)

/-- The `ndarray` reduction `sum_axis(Axis(0))` on an array with `k` columns
given as a list of rows: the per-column sums; the sum over an empty row set
is the length-`k` zero vector. -/
def sum_axis0 {E : Type} [CommRing E] (k : Nat) (rows : List (List E)) : List E :=
  rows.foldr (fun r acc => List.zipWith (· + ·) r acc) (List.replicate k (0 : E))

/-- `compute_residual_array1(m, n, rank, b)` from the source: `None` when
`m < n || n != rank as usize`, otherwise the rows of `b` from row `n` on
(`b.slice(s![n.., ..])`), squared element-wise and summed per column along
the row axis (`sum_axis(Axis(0))`). -/
def compute_residual_array1 {E : Type} [CommRing E] (m n : Nat) (rank : Int)
    (b : MatState E) : Option (List E) :=
  if m < n ∨ n ≠ i32_as_usize rank then none
  else some (sum_axis0 b.shape1 ((b.rowsData.drop n).map (fun row => row.map (fun x => x ^ 2))))

/-- The slice `b.slice(s![0..n])` on a 1-D array: the first `n` entries; an
`n` beyond the array's length is an out-of-bounds slice, which panics in
`ndarray` (modelled as the `SlicePanic` outcome). -/
def slice_to {E : Type} (n : Nat) (l : List E) : Except LinalgError (List E) :=
  if n ≤ l.length then .ok (l.take n) else .error .SlicePanic

/-- The slice `b.slice(s![..n, ..])` on a 2-D array given as a list of rows:
the first `n` full rows; an `n` beyond the row count is an out-of-bounds
slice, which panics in `ndarray` (modelled as the `SlicePanic` outcome). -/
def slice_rows {E : Type} (n : Nat) (rows : List (List E)) :
    Except LinalgError (List (List E)) :=
  if n ≤ rows.length then .ok (rows.take n) else .error .SlicePanic

/-- Behaviour of the external single-right-hand-side solver
`<E as LeastSquaresSvdDivideConquer_>::least_squares(a_layout, a, b)`: it may
fail with a solver error, and on success reports its output together with the
overwritten contents of the two buffers it received. The development is
parameterized over it, since it is an external collaborator. -/
def SolverIx1 (R E : Type) : Type :=
  MatrixLayout → List E → List E →
    Except LinalgError (LeastSquaresOutput R × List E × List E)

/-- Behaviour of the numeric kernel behind the multi-right-hand-side solver,
after its layout validation: same shape as the single-right-hand-side
solver. -/
def KernelIx2 (R E : Type) : Type :=
  MatrixLayout → List E → List E →
    Except LinalgError (LeastSquaresOutput R × List E × List E)

/-- Modelled from the spec: the multi-right-hand-side solver entry
`least_squares_nrhs(a_layout, a, b_layout, b)` lives in
`lapack::least_squares`, which is not part of the least-squares source. Per
§4.1/§7 and the testable properties, mismatched A/B layouts fail with the
incompatible-layout condition before any numeric work; otherwise the numeric
kernel runs on the buffers. -/
def least_squares_nrhs {R E : Type} (kernel : KernelIx2 R E) (a_layout : MatrixLayout)
    (a : List E) (b_layout : MatrixLayout) (b : List E) :
    Except LinalgError (LeastSquaresOutput R × List E × List E) :=
  if a_layout ≠ b_layout then .error .IncompatibleShape
  else kernel a_layout a b

/-- Argument evaluation of the `Ix1` in-place solve, in source order:
`self.layout()?`, then `self.as_allocated_mut()?`, then
`rhs.as_slice_memory_order_mut().ok_or_else(|| LinalgError::MemoryNotCont)?`. -/
def ix1_solver_args {E : Type} [CommRing E] (a : MatState E) (rhs : VecState E) :
    Except LinalgError (MatrixLayout × List E × List E) :=
  match a.layout with
  | .error e => .error e
  | .ok a_layout =>
    match a.as_allocated_mut with
    | .error e => .error e
    | .ok aBuf =>
      match rhs.as_slice_memory_order_mut with
      | none => .error .MemoryNotCont
      | some bBuf => .ok (a_layout, aBuf, bBuf)

/-- Argument evaluation of the `Ix2` in-place solve, in source order:
`self.layout()?`, `rhs.layout()?`, then `self.as_allocated_mut()?` and
`rhs.as_allocated_mut()?` in the argument positions of the solver call. -/
def ix2_solver_args {E : Type} [CommRing E] (a rhs : MatState E) :
    Except LinalgError (MatrixLayout × MatrixLayout × List E × List E) :=
  match a.layout with
  | .error e => .error e
  | .ok a_layout =>
    match rhs.layout with
    | .error e => .error e
    | .ok rhs_layout =>
      match a.as_allocated_mut with
      | .error e => .error e
      | .ok aBuf =>
        match rhs.as_allocated_mut with
        | .error e => .error e
        | .ok bBuf => .ok (a_layout, rhs_layout, aBuf, bBuf)

/-- `least_squares_in_place` for a 1-D right-hand side
(`impl LeastSquaresSvdInPlace<D, E, Ix1> for ArrayBase<D, Ix2>`): validate and
fetch the buffers, run the external solver, write the overwritten buffers
back into the two arrays, then extract `solution = rhs.slice(s![0..n])`, wrap
the singular values, and compute the conditional residual from the
overwritten `rhs`. Returns the final states of `A` and `rhs` (the caller's
mutably borrowed arrays) alongside the result. -/
def least_squares_in_place_ix1 {R E : Type} [CommRing E] (solver : SolverIx1 R E)
    (a : MatState E) (rhs : VecState E) :
    Except LinalgError (MatState E × VecState E × LeastSquaresResultIx1 R E) :=
  match ix1_solver_args a rhs with
  | .error e => .error e
  | .ok (a_layout, _aBuf, bBuf) =>
    match solver a_layout _aBuf bBuf with
    | .error e => .error e
    | .ok (out, aBuf', bBuf') =>
      match slice_to a.shape1 bBuf' with
      | .error e => .error e
      | .ok sol =>
        .ok ({ a with rowsData := unflatten a_layout a.shape0 a.shape1 aBuf' },
             { rhs with data := bBuf' },
             { solution := sol,
               singular_values := out.singular_values,
               rank := out.rank,
               residual_sum_of_squares :=
                 compute_residual_scalar a.shape0 a.shape1 out.rank { rhs with data := bBuf' } })

/-- `least_squares_in_place` for a 2-D right-hand side
(`impl LeastSquaresSvdInPlace<D, E, Ix2> for ArrayBase<D, Ix2>`): validate
both layouts, fetch both flat buffers, run the multi-right-hand-side solver,
write the overwritten buffers back, then extract
`solution = rhs.slice(s![..n, ..])`, wrap the singular values, and compute
the conditional per-column residual from the overwritten `rhs`. -/
def least_squares_in_place_ix2 {R E : Type} [CommRing E] (kernel : KernelIx2 R E)
    (a rhs : MatState E) :
    Except LinalgError (MatState E × MatState E × LeastSquaresResultIx2 R E) :=
  match ix2_solver_args a rhs with
  | .error e => .error e
  | .ok (a_layout, rhs_layout, _aBuf, bBuf) =>
    match least_squares_nrhs kernel a_layout _aBuf rhs_layout bBuf with
    | .error e => .error e
    | .ok (out, aBuf', bBuf') =>
      match slice_rows a.shape1 (unflatten rhs_layout rhs.shape0 rhs.shape1 bBuf') with
      | .error e => .error e
      | .ok sol =>
        .ok ({ a with rowsData := unflatten a_layout a.shape0 a.shape1 aBuf' },
             { rhs with rowsData := unflatten rhs_layout rhs.shape0 rhs.shape1 bBuf' },
             { solution := sol,
               singular_values := out.singular_values,
               rank := out.rank,
               residual_sum_of_squares :=
                 compute_residual_array1 a.shape0 a.shape1 out.rank
                   { rhs with rowsData := unflatten rhs_layout rhs.shape0 rhs.shape1 bBuf' } })

/-- `least_squares_into` for a 1-D right-hand side: takes ownership of both
arrays and delegates directly to the in-place operation
(`self.least_squares_in_place(&mut rhs)`). -/
def least_squares_into_ix1 {R E : Type} [CommRing E] (solver : SolverIx1 R E)
    (a : MatState E) (rhs : VecState E) :
    Except LinalgError (MatState E × VecState E × LeastSquaresResultIx1 R E) :=
  least_squares_in_place_ix1 solver a rhs

/-- `least_squares_into` for a 2-D right-hand side: takes ownership of both
arrays and delegates directly to the in-place operation. -/
def least_squares_into_ix2 {R E : Type} [CommRing E] (kernel : KernelIx2 R E)
    (a rhs : MatState E) :
    Except LinalgError (MatState E × MatState E × LeastSquaresResultIx2 R E) :=
  least_squares_in_place_ix2 kernel a rhs

/-- `least_squares` (borrowed) for a 1-D right-hand side: duplicates `A` and
`rhs` into owned buffers (`to_owned`) and delegates to the consuming
operation; only the `LeastSquaresResult` is returned and the copies are
dropped. The first two components are the caller's arrays after the call:
they are only read through shared borrows, so they pass through unchanged. -/
def least_squares_ix1 {R E : Type} [CommRing E] (solver : SolverIx1 R E)
    (a : MatState E) (rhs : VecState E) :
    MatState E × VecState E × Except LinalgError (LeastSquaresResultIx1 R E) :=
  (a, rhs,
    Except.map (fun x => x.2.2) (least_squares_into_ix1 solver a.to_owned rhs.to_owned))

/-- `least_squares` (borrowed) for a 2-D right-hand side: duplicates `A` and
`rhs` into owned buffers and delegates to the consuming operation; the
caller's arrays pass through unchanged. -/
def least_squares_ix2 {R E : Type} [CommRing E] (kernel : KernelIx2 R E)
    (a rhs : MatState E) :
    MatState E × MatState E × Except LinalgError (LeastSquaresResultIx2 R E) :=
  (a, rhs,
    Except.map (fun x => x.2.2) (least_squares_into_ix2 kernel a.to_owned rhs.to_owned))

/-! ### Concrete instances used to exercise the pipeline -/

/-- A trivial solver behaviour used to exercise the pipeline on concrete
inputs: it succeeds, reports the given singular values and rank, and leaves
both buffers exactly as it received them. -/
def constSolver (sv : List Int) (rank : Int) : SolverIx1 Int Int :=
  fun _ a b => .ok ({ singular_values := sv, rank := rank }, a, b)

/-- A trivial multi-right-hand-side kernel behaviour: succeeds with the given
singular values and rank, leaving both buffers as received. -/
def constKernel (sv : List Int) (rank : Int) : KernelIx2 Int Int :=
  fun _ a b => .ok ({ singular_values := sv, rank := rank }, a, b)

/-- A concrete over-determined system matrix: 3 × 2, row-major, allocated. -/
def aMat32 : MatState Int :=
  { shape0 := 3, shape1 := 2, rowsData := [[1, 2], [3, 4], [5, 6]],
    layoutTag := some .C, allocated := true }

/-- A concrete length-3 contiguous right-hand-side vector. -/
def bVec3 : VecState Int := { data := [7, 8, 9], contiguous := true }

/-- A concrete under-determined system matrix: 2 × 3, row-major, allocated. -/
def aMat23 : MatState Int :=
  { shape0 := 2, shape1 := 3, rowsData := [[1, 2, 3], [4, 5, 6]],
    layoutTag := some .C, allocated := true }

/-- A concrete length-2 contiguous right-hand-side vector. -/
def bVec2 : VecState Int := { data := [7, 8], contiguous := true }

/-- A concrete 2 × 2 row-major allocated right-hand-side matrix. -/
def bMat22 : MatState Int :=
  { shape0 := 2, shape1 := 2, rowsData := [[7, 8], [9, 10]],
    layoutTag := some .C, allocated := true }

/-- A concrete 3 × 2 row-major allocated right-hand-side matrix. -/
def bMat32 : MatState Int :=
  { shape0 := 3, shape1 := 2, rowsData := [[7, 8], [9, 10], [11, 12]],
    layoutTag := some .C, allocated := true }

/-- A concrete 3 × 2 column-major allocated right-hand-side matrix. -/
def bMat32F : MatState Int :=
  { shape0 := 3, shape1 := 2, rowsData := [[7, 8], [9, 10], [11, 12]],
    layoutTag := some .F, allocated := true }

example :
    least_squares_in_place_ix1 (constSolver [5, 3] 2) aMat32 bVec3 =
      .ok ({ aMat32 with rowsData := [[1, 2], [3, 4], [5, 6]] },
           bVec3,
           { solution := [7, 8], singular_values := [5, 3], rank := 2,
             residual_sum_of_squares := some 81 }) := by rfl

example :
    least_squares_in_place_ix2 (constKernel [5, 3] 2) aMat32 bMat32 =
      .ok ({ aMat32 with rowsData := [[1, 2], [3, 4], [5, 6]] },
           bMat32,
           { solution := [[7, 8], [9, 10]], singular_values := [5, 3], rank := 2,
             residual_sum_of_squares := some [121, 144] }) := by rfl

/-! ### Helper lemmas -/

theorem i32_as_usize_eq_iff (r : Int) (n : Nat) (h0 : 0 ≤ r) (h1 : r < 2 ^ 31) :
    i32_as_usize r = n ↔ r = n := by
  have h2 : r < (2 : Int) ^ 64 := lt_trans h1 (by norm_num)
  unfold i32_as_usize
  rw [Int.emod_eq_of_lt h0 h2]
  omega

theorem compute_residual_scalar_isSome {E : Type} [CommRing E] (m n : Nat) (rank : Int)
    (b : VecState E) (h0 : 0 ≤ rank) (h1 : rank < 2 ^ 31) :
    (compute_residual_scalar m n rank b).isSome ↔ (n ≤ m ∧ rank = n) := by
  have hiff := i32_as_usize_eq_iff rank n h0 h1
  unfold compute_residual_scalar
  by_cases hc : m < n ∨ n ≠ i32_as_usize rank
  · simp only [if_pos hc, Option.isSome_none, Bool.false_eq_true, false_iff]
    rintro ⟨hnm, hr⟩
    rcases hc with hc | hc
    · omega
    · exact hc (hiff.mpr hr).symm
  · simp only [if_neg hc, Option.isSome_some, true_iff]
    push_neg at hc
    exact ⟨by omega, hiff.mp hc.2.symm⟩

theorem compute_residual_array1_isSome {E : Type} [CommRing E] (m n : Nat) (rank : Int)
    (b : MatState E) (h0 : 0 ≤ rank) (h1 : rank < 2 ^ 31) :
    (compute_residual_array1 m n rank b).isSome ↔ (n ≤ m ∧ rank = n) := by
  have hiff := i32_as_usize_eq_iff rank n h0 h1
  unfold compute_residual_array1
  by_cases hc : m < n ∨ n ≠ i32_as_usize rank
  · simp only [if_pos hc, Option.isSome_none, Bool.false_eq_true, false_iff]
    rintro ⟨hnm, hr⟩
    rcases hc with hc | hc
    · omega
    · exact hc (hiff.mpr hr).symm
  · simp only [if_neg hc, Option.isSome_some, true_iff]
    push_neg at hc
    exact ⟨by omega, hiff.mp hc.2.symm⟩

theorem unflatten_length {E : Type} [CommRing E] (l : MatrixLayout) (m k : Nat)
    (buf : List E) : (unflatten l m k buf).length = m := by
  cases l <;> simp [unflatten]

theorem getD_replicate_zero {E : Type} [CommRing E] (k j : Nat) :
    (List.replicate k (0 : E)).getD j 0 = 0 := by
  induction k generalizing j with
  | zero => simp
  | succ k ih =>
    cases j with
    | zero => simp [List.replicate_succ]
    | succ j => simp [List.replicate_succ, List.getD_cons_succ, ih]

theorem getD_zipWith_add {E : Type} [CommRing E] :
    ∀ (xs ys : List E) (j : Nat), j < xs.length → j < ys.length →
      (List.zipWith (· + ·) xs ys).getD j 0 = xs.getD j 0 + ys.getD j 0 := by
  intro xs
  induction xs with
  | nil => intro ys j h1 _; simp at h1
  | cons x xs ih =>
    intro ys j h1 h2
    cases ys with
    | nil => simp at h2
    | cons y ys =>
      cases j with
      | zero => simp
      | succ j =>
        simp only [List.zipWith_cons_cons, List.getD_cons_succ]
        exact ih ys j (by simpa using h1) (by simpa using h2)

theorem getD_map_of_lt {E : Type} [CommRing E] (f : E → E) :
    ∀ (row : List E) (j : Nat), j < row.length →
      (row.map f).getD j 0 = f (row.getD j 0) := by
  intro row
  induction row with
  | nil => intro j hj; simp at hj
  | cons x xs ih =>
    intro j hj
    cases j with
    | zero => simp
    | succ j =>
      simp only [List.map_cons, List.getD_cons_succ]
      exact ih j (by simpa using hj)

theorem sum_axis0_nil {E : Type} [CommRing E] (k : Nat) :
    sum_axis0 k ([] : List (List E)) = List.replicate k 0 := rfl

theorem sum_axis0_cons {E : Type} [CommRing E] (k : Nat) (r : List E) (rows : List (List E)) :
    sum_axis0 k (r :: rows) = List.zipWith (· + ·) r (sum_axis0 k rows) := rfl

theorem sum_axis0_length {E : Type} [CommRing E] (k : Nat) (rows : List (List E))
    (h : ∀ r ∈ rows, r.length = k) : (sum_axis0 k rows).length = k := by
  induction rows with
  | nil => simp [sum_axis0_nil]
  | cons r rs ih =>
    rw [sum_axis0_cons, List.length_zipWith, ih (fun x hx => h x (List.mem_cons_of_mem r hx)),
      h r (List.mem_cons_self r rs)]
    exact Nat.min_self k

theorem sum_axis0_getD {E : Type} [CommRing E] (k : Nat) (rows : List (List E))
    (h : ∀ r ∈ rows, r.length = k) (j : Nat) (hj : j < k) :
    (sum_axis0 k rows).getD j 0 = (rows.map (fun r => r.getD j 0)).sum := by
  induction rows with
  | nil => simp [sum_axis0_nil, getD_replicate_zero]
  | cons r rs ih =>
    have hr : r.length = k := h r (List.mem_cons_self r rs)
    have hrs : ∀ x ∈ rs, x.length = k := fun x hx => h x (List.mem_cons_of_mem r hx)
    rw [sum_axis0_cons,
      getD_zipWith_add r (sum_axis0 k rs) j (by omega) (by rw [sum_axis0_length k rs hrs]; omega),
      List.map_cons, List.sum_cons, ih hrs]

/-- Inversion principle for a successful `Ix1` in-place solve: every `ok`
result arises from successful argument validation, a successful solver run,
an in-bounds solution slice, and the source's result assembly. -/
theorem least_squares_in_place_ix1_ok {R E : Type} [CommRing E] (solver : SolverIx1 R E)
    (a : MatState E) (rhs : VecState E) (a' : MatState E) (rhs' : VecState E)
    (r : LeastSquaresResultIx1 R E)
    (h : least_squares_in_place_ix1 solver a rhs = .ok (a', rhs', r)) :
    ∃ a_layout aBuf bBuf out aBuf' bBuf',
      ix1_solver_args a rhs = .ok (a_layout, aBuf, bBuf) ∧
      solver a_layout aBuf bBuf = .ok (out, aBuf', bBuf') ∧
      a.shape1 ≤ bBuf'.length ∧
      a' = { a with rowsData := unflatten a_layout a.shape0 a.shape1 aBuf' } ∧
      rhs' = { rhs with data := bBuf' } ∧
      r = { solution := bBuf'.take a.shape1,
            singular_values := out.singular_values,
            rank := out.rank,
            residual_sum_of_squares :=
              compute_residual_scalar a.shape0 a.shape1 out.rank { rhs with data := bBuf' } } := by
  unfold least_squares_in_place_ix1 at h
  split at h
  · exact absurd h (by simp)
  case _ a_layout aBuf bBuf heq =>
    split at h
    · exact absurd h (by simp)
    case _ out aBuf' bBuf' hsolve =>
      split at h
      · exact absurd h (by simp)
      case _ sol hslice =>
        unfold slice_to at hslice
        split at hslice
        case _ hle =>
          injection hslice with hslice
          injection h with h
          injection h with h1 h
          injection h with h2 h3
          exact ⟨a_layout, aBuf, bBuf, out, aBuf', bBuf', heq, hsolve, hle,
            h1.symm, h2.symm, by rw [← h3, ← hslice]⟩
        · exact absurd hslice (by simp)

/-- Inversion principle for a successful `Ix2` in-place solve. -/
theorem least_squares_in_place_ix2_ok {R E : Type} [CommRing E] (kernel : KernelIx2 R E)
    (a rhs : MatState E) (a' rhs' : MatState E) (r : LeastSquaresResultIx2 R E)
    (h : least_squares_in_place_ix2 kernel a rhs = .ok (a', rhs', r)) :
    ∃ a_layout rhs_layout aBuf bBuf out aBuf' bBuf',
      ix2_solver_args a rhs = .ok (a_layout, rhs_layout, aBuf, bBuf) ∧
      least_squares_nrhs kernel a_layout aBuf rhs_layout bBuf = .ok (out, aBuf', bBuf') ∧
      a.shape1 ≤ rhs.shape0 ∧
      a' = { a with rowsData := unflatten a_layout a.shape0 a.shape1 aBuf' } ∧
      rhs' = { rhs with rowsData := unflatten rhs_layout rhs.shape0 rhs.shape1 bBuf' } ∧
      r = { solution := (unflatten rhs_layout rhs.shape0 rhs.shape1 bBuf').take a.shape1,
            singular_values := out.singular_values,
            rank := out.rank,
            residual_sum_of_squares :=
              compute_residual_array1 a.shape0 a.shape1 out.rank
                { rhs with rowsData := unflatten rhs_layout rhs.shape0 rhs.shape1 bBuf' } } := by
  unfold least_squares_in_place_ix2 at h
  split at h
  · exact absurd h (by simp)
  case _ a_layout rhs_layout aBuf bBuf heq =>
    split at h
    · exact absurd h (by simp)
    case _ out aBuf' bBuf' hsolve =>
      split at h
      · exact absurd h (by simp)
      case _ sol hslice =>
        unfold slice_rows at hslice
        split at hslice
        case _ hle =>
          injection hslice with hslice
          injection h with h
          injection h with h1 h
          injection h with h2 h3
          rw [unflatten_length] at hle
          exact ⟨a_layout, rhs_layout, aBuf, bBuf, out, aBuf', bBuf', heq, hsolve, hle,
            h1.symm, h2.symm, by rw [← h3, ← hslice]⟩
        · exact absurd hslice (by simp)

theorem to_owned_shape0 {E : Type} (a : MatState E) : a.to_owned.shape0 = a.shape0 := by
  unfold MatState.to_owned
  cases a.layoutTag <;> rfl

theorem to_owned_shape1 {E : Type} (a : MatState E) : a.to_owned.shape1 = a.shape1 := by
  unfold MatState.to_owned
  cases a.layoutTag <;> rfl

theorem to_owned_allocated {E : Type} (a : MatState E) : a.to_owned.allocated = true := by
  unfold MatState.to_owned
  cases a.layoutTag <;> rfl

theorem to_owned_layoutTag {E : Type} (a : MatState E) (l : MatrixLayout)
    (h : a.layoutTag = some l) : a.to_owned.layoutTag = some l := by
  simp [MatState.to_owned, h]

theorem except_map_ok {ε α β : Type} (f : α → β) (x : Except ε α) (y : β)
    (h : Except.map f x = .ok y) : ∃ z, x = .ok z ∧ y = f z := by
  cases x with
  | error e => simp [Except.map] at h
  | ok z =>
    refine ⟨z, rfl, ?_⟩
    simp [Except.map] at h
    exact h.symm

/-! ### Claim theorems -/

/-- C2 counterexample: the three entry points do not return the same result
on every input. On a non-contiguous (no layout tag) but allocated `A` with a
contiguous right-hand side, the borrowed solve succeeds — its `to_owned`
copies normalize storage to row-major — while the in-place solve (and hence
the consuming solve, which equals it) fails with the incompatible-layout
error, refuting the claim's conclusion that all three return the same
solution, singular values, rank and residual on every same input. -/
theorem c2_counterexample :
    (least_squares_ix1 (constSolver [5, 3] 2)
        { aMat32 with layoutTag := none } bVec3).2.2 =
      .ok { solution := [7, 8], singular_values := [5, 3], rank := 2,
            residual_sum_of_squares := some 81 }
    ∧ least_squares_in_place_ix1 (constSolver [5, 3] 2)
        { aMat32 with layoutTag := none } bVec3 = .error .IncompatibleShape :=
  ⟨rfl, rfl⟩

/-- C2 as amended: the consuming solve (`least_squares_into`) is exactly the
in-place solve (`least_squares_in_place`), and the borrowed solve
(`least_squares`) is exactly copying `A` and the right-hand side and
delegating to the consuming solve, leaving the caller's arrays untouched —
both unconditionally; hence on any input that is already an owned standard
array (fixed by `to_owned`: contiguous and allocated) all three produce the
same solution, singular values, rank and residual, differing only in which
caller buffers are mutated. (On other inputs the borrowed solve's copies
normalize storage, so it can succeed where the other two fail with a layout
error.) Stated for both the vector and matrix cases. -/
theorem c2_entry_points_delegate (R E : Type) [CommRing E] :
    (∀ (solver : SolverIx1 R E) (a : MatState E) (rhs : VecState E),
        least_squares_into_ix1 solver a rhs = least_squares_in_place_ix1 solver a rhs
        ∧ least_squares_ix1 solver a rhs =
            (a, rhs, Except.map (fun x => x.2.2)
              (least_squares_into_ix1 solver a.to_owned rhs.to_owned))
        ∧ (a.to_owned = a → rhs.to_owned = rhs →
            (least_squares_ix1 solver a rhs).2.2 =
              Except.map (fun x => x.2.2) (least_squares_in_place_ix1 solver a rhs)))
    ∧ (∀ (kernel : KernelIx2 R E) (a rhs : MatState E),
        least_squares_into_ix2 kernel a rhs = least_squares_in_place_ix2 kernel a rhs
        ∧ least_squares_ix2 kernel a rhs =
            (a, rhs, Except.map (fun x => x.2.2)
              (least_squares_into_ix2 kernel a.to_owned rhs.to_owned))
        ∧ (a.to_owned = a → rhs.to_owned = rhs →
            (least_squares_ix2 kernel a rhs).2.2 =
              Except.map (fun x => x.2.2) (least_squares_in_place_ix2 kernel a rhs))) := by
  refine ⟨fun solver a rhs => ⟨rfl, rfl, fun h1 h2 => ?_⟩,
          fun kernel a rhs => ⟨rfl, rfl, fun h1 h2 => ?_⟩⟩
  · show Except.map (fun x => x.2.2)
        (least_squares_into_ix1 solver a.to_owned rhs.to_owned) = _
    rw [h1, h2]
    rfl
  · show Except.map (fun x => x.2.2)
        (least_squares_into_ix2 kernel a.to_owned rhs.to_owned) = _
    rw [h1, h2]
    rfl

/-- Witness for C2 at a concrete owned, row-major, allocated instance. -/
theorem c2_entry_points_delegate_witness :
    (least_squares_ix1 (constSolver [5, 3] 2) aMat32 bVec3).2.2 =
      Except.map (fun x => x.2.2)
        (least_squares_in_place_ix1 (constSolver [5, 3] 2) aMat32 bVec3) :=
  ((c2_entry_points_delegate Int Int).1 (constSolver [5, 3] 2) aMat32 bVec3).2.2
    (by rfl) (by rfl)

/-- C4: the borrowed solve leaves the caller's `A` and `rhs` numerically
unchanged after the call, whatever the solver does (so in particular whether
the call succeeds or fails): the caller-visible post-states of both arrays
equal their input states for every input, in both the vector and matrix
cases. It operates only on internally duplicated owned buffers. -/
theorem c4_borrowed_leaves_inputs_unchanged (R E : Type) [CommRing E] :
    (∀ (solver : SolverIx1 R E) (a : MatState E) (rhs : VecState E),
        (least_squares_ix1 solver a rhs).1 = a
        ∧ (least_squares_ix1 solver a rhs).2.1 = rhs)
    ∧ (∀ (kernel : KernelIx2 R E) (a rhs : MatState E),
        (least_squares_ix2 kernel a rhs).1 = a
        ∧ (least_squares_ix2 kernel a rhs).2.1 = rhs) :=
  ⟨fun _ _ _ => ⟨rfl, rfl⟩, fun _ _ _ => ⟨rfl, rfl⟩⟩

/-- C5: evaluation of the code at the failing input. With `A` of shape
`2 × 3` (`m = 2 < n = 3`), the right-hand-side buffer handed to the external
solver is the caller's buffer with `m = 2` rows — length `2` in the vector
case and `2 × 2 = 4` elements in the matrix case — not the `max(m, n) = 3`
rows (length `3`, resp. `3 × 2 = 6` elements) that the solver requires to
hold the solution when `n > m`. -/
theorem c5_rhs_buffer_has_m_rows_not_max :
    (Except.map (fun x => x.2.2.length) (ix1_solver_args aMat23 bVec2) = .ok 2
      ∧ aMat23.shape0 = 2 ∧ max aMat23.shape0 aMat23.shape1 = 3)
    ∧ (Except.map (fun x => x.2.2.2.length) (ix2_solver_args aMat23 bMat22) = .ok 4
      ∧ aMat23.shape0 * bMat22.shape1 = 4
      ∧ max aMat23.shape0 aMat23.shape1 * bMat22.shape1 = 6) :=
  ⟨⟨rfl, rfl, rfl⟩, ⟨rfl, rfl, rfl⟩⟩

/-- C6 counterexample: a contiguous row-major `A` paired with a
non-contiguous 1-D right-hand side is a "mixed/non-contiguous" pair, yet the
call fails with the non-contiguous-buffer error `MemoryNotCont`, which is
distinct from the incompatible-layout condition the claim requires. -/
theorem c6_counterexample :
    least_squares_in_place_ix1 (constSolver [] 0) aMat32
        { data := [1, 2, 3], contiguous := false } = .error .MemoryNotCont
    ∧ LinalgError.MemoryNotCont ≠ LinalgError.IncompatibleShape :=
  ⟨rfl, by decide⟩

/-- C6 as amended: in the 2-D right-hand-side case, a contiguous row-major
paired with a contiguous column-major array fails with the incompatible-layout
condition for every entry point, independently of the numeric kernel (so
before any numeric work); non-contiguous buffers instead fail with the
distinct non-contiguous-buffer error, and a 1-D right-hand side has no
storage order, so no layout-mismatch check applies to it. -/
theorem c6_amended_layout_mismatch (R E : Type) [CommRing E] :
    ∀ (kernel : KernelIx2 R E) (a rhs : MatState E) (la lb : MatrixLayout),
      a.layoutTag = some la → rhs.layoutTag = some lb → la ≠ lb →
      a.allocated = true → rhs.allocated = true →
      least_squares_in_place_ix2 kernel a rhs = .error .IncompatibleShape
      ∧ least_squares_into_ix2 kernel a rhs = .error .IncompatibleShape
      ∧ (least_squares_ix2 kernel a rhs).2.2 = .error .IncompatibleShape := by
  intro kernel a rhs la lb hla hlb hne haa hra
  have key : ∀ (x y : MatState E), x.layoutTag = some la → y.layoutTag = some lb →
      x.allocated = true → y.allocated = true →
      least_squares_in_place_ix2 kernel x y = .error .IncompatibleShape := by
    intro x y hxl hyl hxa hya
    unfold least_squares_in_place_ix2 ix2_solver_args MatState.layout
      MatState.as_allocated_mut least_squares_nrhs
    simp only [hxl, hyl, hxa, hya, if_true, Option.getD_some]
    rw [if_pos hne]
  have h1 := key a rhs hla hlb haa hra
  refine ⟨h1, h1, ?_⟩
  have h2 := key a.to_owned rhs.to_owned (to_owned_layoutTag a la hla)
    (to_owned_layoutTag rhs lb hlb) (to_owned_allocated a) (to_owned_allocated rhs)
  show Except.map (fun x => x.2.2)
      (least_squares_into_ix2 kernel a.to_owned rhs.to_owned) = _
  rw [show least_squares_into_ix2 kernel a.to_owned rhs.to_owned =
        .error .IncompatibleShape from h2]
  rfl

/-- Witness for the amended C6 at a concrete mismatched pair: row-major `A`,
column-major right-hand side. -/
theorem c6_amended_layout_mismatch_witness :
    least_squares_in_place_ix2 (constKernel [] 0) aMat32 bMat32F =
        .error .IncompatibleShape
    ∧ least_squares_into_ix2 (constKernel [] 0) aMat32 bMat32F =
        .error .IncompatibleShape
    ∧ (least_squares_ix2 (constKernel [] 0) aMat32 bMat32F).2.2 =
        .error .IncompatibleShape :=
  c6_amended_layout_mismatch Int Int (constKernel [] 0) aMat32 bMat32F .C .F
    rfl rfl (by decide) rfl rfl

/-- C8: when a validated-layout array's backing storage cannot be obtained as
a flat contiguous view (`A` or the right-hand side, vector or matrix case),
the call fails with the non-contiguous/unallocated-buffer error
`MemoryNotCont`, which is distinct from the incompatible-layout error; the
failure is the same for every solver behaviour, i.e. it short-circuits the
solver call and the extraction steps, and no partial result is returned. -/
theorem c8_noncontiguous_buffer_error (R E : Type) [CommRing E] :
    (∀ (solver : SolverIx1 R E) (a : MatState E) (rhs : VecState E) (l : MatrixLayout),
        a.layoutTag = some l → a.allocated = false →
        least_squares_in_place_ix1 solver a rhs = .error .MemoryNotCont)
    ∧ (∀ (solver : SolverIx1 R E) (a : MatState E) (rhs : VecState E) (l : MatrixLayout),
        a.layoutTag = some l → a.allocated = true → rhs.contiguous = false →
        least_squares_in_place_ix1 solver a rhs = .error .MemoryNotCont)
    ∧ (∀ (kernel : KernelIx2 R E) (a rhs : MatState E) (la lb : MatrixLayout),
        a.layoutTag = some la → rhs.layoutTag = some lb → a.allocated = false →
        least_squares_in_place_ix2 kernel a rhs = .error .MemoryNotCont)
    ∧ (∀ (kernel : KernelIx2 R E) (a rhs : MatState E) (la lb : MatrixLayout),
        a.layoutTag = some la → rhs.layoutTag = some lb → a.allocated = true →
        rhs.allocated = false →
        least_squares_in_place_ix2 kernel a rhs = .error .MemoryNotCont)
    ∧ LinalgError.MemoryNotCont ≠ LinalgError.IncompatibleShape := by
  refine ⟨?_, ?_, ?_, ?_, by decide⟩
  · intro solver a rhs l hl ha
    unfold least_squares_in_place_ix1 ix1_solver_args MatState.layout
      MatState.as_allocated_mut
    simp [hl, ha]
  · intro solver a rhs l hl ha hc
    unfold least_squares_in_place_ix1 ix1_solver_args MatState.layout
      MatState.as_allocated_mut VecState.as_slice_memory_order_mut
    simp [hl, ha, hc]
  · intro kernel a rhs la lb hla hlb ha
    unfold least_squares_in_place_ix2 ix2_solver_args MatState.layout
      MatState.as_allocated_mut
    simp [hla, hlb, ha]
  · intro kernel a rhs la lb hla hlb ha hra
    unfold least_squares_in_place_ix2 ix2_solver_args MatState.layout
      MatState.as_allocated_mut
    simp [hla, hlb, ha, hra]

/-- Witness for C8: a row-major but unallocated `A` fails with
`MemoryNotCont`. -/
theorem c8_noncontiguous_buffer_error_witness :
    least_squares_in_place_ix1 (constSolver [] 0)
        { aMat32 with allocated := false } bVec3 = .error .MemoryNotCont :=
  (c8_noncontiguous_buffer_error Int Int).1 (constSolver [] 0)
    { aMat32 with allocated := false } bVec3 .C rfl rfl

/-- C1: for every solve that returns a result — the in-place operation in both
the vector and matrix cases, and the borrowed operation which delegates to it
(the consuming one is definitionally the in-place one) — the returned
`residual_sum_of_squares` is `Some` iff `m ≥ n` and the solver-reported rank
equals `n`, where `A` has shape `m × n` and the rank is a value in the `i32`
range as LAPACK reports it; otherwise it is `None` — an option, never a
sentinel value and never an error. -/
theorem c1_residual_present_iff (R E : Type) [CommRing E] :
    (∀ (solver : SolverIx1 R E) (a : MatState E) (rhs : VecState E)
        (a' : MatState E) (rhs' : VecState E) (r : LeastSquaresResultIx1 R E),
        least_squares_in_place_ix1 solver a rhs = .ok (a', rhs', r) →
        0 ≤ r.rank → r.rank < 2 ^ 31 →
        (r.residual_sum_of_squares.isSome ↔ (a.shape1 ≤ a.shape0 ∧ r.rank = a.shape1)))
    ∧ (∀ (kernel : KernelIx2 R E) (a rhs a' rhs' : MatState E)
        (r : LeastSquaresResultIx2 R E),
        least_squares_in_place_ix2 kernel a rhs = .ok (a', rhs', r) →
        0 ≤ r.rank → r.rank < 2 ^ 31 →
        (r.residual_sum_of_squares.isSome ↔ (a.shape1 ≤ a.shape0 ∧ r.rank = a.shape1)))
    ∧ (∀ (solver : SolverIx1 R E) (a : MatState E) (rhs : VecState E)
        (r : LeastSquaresResultIx1 R E),
        (least_squares_ix1 solver a rhs).2.2 = .ok r →
        0 ≤ r.rank → r.rank < 2 ^ 31 →
        (r.residual_sum_of_squares.isSome ↔ (a.shape1 ≤ a.shape0 ∧ r.rank = a.shape1)))
    ∧ (∀ (kernel : KernelIx2 R E) (a rhs : MatState E)
        (r : LeastSquaresResultIx2 R E),
        (least_squares_ix2 kernel a rhs).2.2 = .ok r →
        0 ≤ r.rank → r.rank < 2 ^ 31 →
        (r.residual_sum_of_squares.isSome ↔ (a.shape1 ≤ a.shape0 ∧ r.rank = a.shape1))) := by
  have hip1 : ∀ (solver : SolverIx1 R E) (a : MatState E) (rhs : VecState E)
      (a' : MatState E) (rhs' : VecState E) (r : LeastSquaresResultIx1 R E),
      least_squares_in_place_ix1 solver a rhs = .ok (a', rhs', r) →
      0 ≤ r.rank → r.rank < 2 ^ 31 →
      (r.residual_sum_of_squares.isSome ↔ (a.shape1 ≤ a.shape0 ∧ r.rank = a.shape1)) := by
    intro solver a rhs a' rhs' r hok h0 h1
    obtain ⟨al, aB, bB, out, aB', bB', -, -, -, -, -, hr⟩ :=
      least_squares_in_place_ix1_ok solver a rhs a' rhs' r hok
    subst hr
    exact compute_residual_scalar_isSome a.shape0 a.shape1 out.rank
      { rhs with data := bB' } h0 h1
  have hip2 : ∀ (kernel : KernelIx2 R E) (a rhs a' rhs' : MatState E)
      (r : LeastSquaresResultIx2 R E),
      least_squares_in_place_ix2 kernel a rhs = .ok (a', rhs', r) →
      0 ≤ r.rank → r.rank < 2 ^ 31 →
      (r.residual_sum_of_squares.isSome ↔ (a.shape1 ≤ a.shape0 ∧ r.rank = a.shape1)) := by
    intro kernel a rhs a' rhs' r hok h0 h1
    obtain ⟨al, rl, aB, bB, out, aB', bB', -, -, -, -, -, hr⟩ :=
      least_squares_in_place_ix2_ok kernel a rhs a' rhs' r hok
    subst hr
    exact compute_residual_array1_isSome a.shape0 a.shape1 out.rank
      { rhs with rowsData := unflatten rl rhs.shape0 rhs.shape1 bB' } h0 h1
  refine ⟨hip1, hip2, ?_, ?_⟩
  · intro solver a rhs r hok h0 h1
    have hok' : Except.map (fun x => x.2.2)
        (least_squares_in_place_ix1 solver a.to_owned rhs.to_owned) = .ok r := hok
    obtain ⟨z, hz, hr⟩ := except_map_ok _ _ _ hok'
    obtain ⟨a', rhs', r'⟩ := z
    have hiff := hip1 solver a.to_owned rhs.to_owned a' rhs' r' hz
      (by rw [hr] at h0; exact h0) (by rw [hr] at h1; exact h1)
    rw [to_owned_shape0, to_owned_shape1] at hiff
    rw [hr]
    exact hiff
  · intro kernel a rhs r hok h0 h1
    have hok' : Except.map (fun x => x.2.2)
        (least_squares_in_place_ix2 kernel a.to_owned rhs.to_owned) = .ok r := hok
    obtain ⟨z, hz, hr⟩ := except_map_ok _ _ _ hok'
    obtain ⟨a', rhs', r'⟩ := z
    have hiff := hip2 kernel a.to_owned rhs.to_owned a' rhs' r' hz
      (by rw [hr] at h0; exact h0) (by rw [hr] at h1; exact h1)
    rw [to_owned_shape0, to_owned_shape1] at hiff
    rw [hr]
    exact hiff

/-- Witness for C1 at a concrete over-determined full-rank instance:
`m = 3 ≥ n = 2`, reported rank `2`, residual present. -/
theorem c1_residual_present_iff_witness :
    ((some (81 : Int)).isSome
      ↔ (aMat32.shape1 ≤ aMat32.shape0 ∧ (2 : Int) = aMat32.shape1)) :=
  (c1_residual_present_iff Int Int).1 (constSolver [5, 3] 2) aMat32 bVec3 aMat32 bVec3
    { solution := [7, 8], singular_values := [5, 3], rank := 2,
      residual_sum_of_squares := some 81 }
    (by rfl) (by decide) (by decide)

/-- C3: whenever the residual is present, its value is the element-wise
square of the overwritten right-hand-side buffer's rows from `n` on, summed
along the row axis: the scalar case sums the squares of the trailing entries,
and in the matrix case the `j`-th component of the length-`k` residual vector
is the sum of the squares of column `j` of the trailing rows, each column
computed independently of the others. -/
theorem c3_residual_value (E : Type) [CommRing E] :
    (∀ (m n : Nat) (rank : Int) (b : VecState E) (v : E),
        compute_residual_scalar m n rank b = some v →
        v = ((b.data.drop n).map (fun x => x ^ 2)).sum)
    ∧ (∀ (m n : Nat) (rank : Int) (b : MatState E) (w : List E),
        (∀ row ∈ b.rowsData, row.length = b.shape1) →
        compute_residual_array1 m n rank b = some w →
        w.length = b.shape1 ∧
          ∀ j, j < b.shape1 →
            w.getD j 0 =
              (((b.rowsData.drop n).map (fun row => row.getD j 0)).map
                  (fun x => x ^ 2)).sum) := by
  constructor
  · intro m n rank b v h
    unfold compute_residual_scalar at h
    split at h
    · exact absurd h (by simp)
    · injection h with h
      exact h.symm
  · intro m n rank b w hwf h
    unfold compute_residual_array1 at h
    split at h
    · exact absurd h (by simp)
    · injection h with h
      have hwf' : ∀ row ∈ (b.rowsData.drop n).map (fun row => row.map (fun x => x ^ 2)),
          row.length = b.shape1 := by
        intro row hrow
        obtain ⟨row0, hrow0, hmap⟩ := List.mem_map.mp hrow
        rw [← hmap, List.length_map]
        exact hwf row0 (List.mem_of_mem_drop hrow0)
      constructor
      · rw [← h]
        exact sum_axis0_length b.shape1 _ hwf'
      · intro j hj
        rw [← h, sum_axis0_getD b.shape1 _ hwf' j hj, List.map_map, List.map_map]
        apply congrArg List.sum
        apply List.map_congr_left
        intro row hrow
        have hlen : j < row.length := by
          rw [hwf row (List.mem_of_mem_drop hrow)]
          exact hj
        simp only [Function.comp]
        exact getD_map_of_lt (fun x => x ^ 2) row j hlen

/-- Witness for C3 (matrix case) at a concrete `3 × 2` buffer with `n = 2`:
the second residual component is the square of the trailing entry of the
second column. -/
theorem c3_residual_value_witness :
    ([121, 144] : List Int).getD 1 0 =
      (((bMat32.rowsData.drop 2).map (fun row => row.getD 1 0)).map
          (fun x => x ^ 2)).sum :=
  (((c3_residual_value Int).2 3 2 2 bMat32 [121, 144] (by decide) (by rfl)).2 1
    (by decide))

/-- C7: for every successful solve, the returned solution is exactly the
leading rows `0..n` of the overwritten right-hand-side buffer — `take n` of
the returned buffer state, no further computation — so it has `n` entries in
the vector case and `n` rows (of all `k` columns) in the matrix case. -/
theorem c7_solution_is_leading_slice (R E : Type) [CommRing E] :
    (∀ (solver : SolverIx1 R E) (a : MatState E) (rhs : VecState E)
        (a' : MatState E) (rhs' : VecState E) (r : LeastSquaresResultIx1 R E),
        least_squares_in_place_ix1 solver a rhs = .ok (a', rhs', r) →
        r.solution = rhs'.data.take a.shape1 ∧ r.solution.length = a.shape1)
    ∧ (∀ (kernel : KernelIx2 R E) (a rhs a' rhs' : MatState E)
        (r : LeastSquaresResultIx2 R E),
        least_squares_in_place_ix2 kernel a rhs = .ok (a', rhs', r) →
        r.solution = rhs'.rowsData.take a.shape1 ∧ r.solution.length = a.shape1) := by
  constructor
  · intro solver a rhs a' rhs' r hok
    obtain ⟨al, aB, bB, out, aB', bB', -, -, hle, -, hrhs, hr⟩ :=
      least_squares_in_place_ix1_ok solver a rhs a' rhs' r hok
    subst hr
    subst hrhs
    exact ⟨rfl, by simp [List.length_take]; omega⟩
  · intro kernel a rhs a' rhs' r hok
    obtain ⟨al, rl, aB, bB, out, aB', bB', -, -, hle, -, hrhs, hr⟩ :=
      least_squares_in_place_ix2_ok kernel a rhs a' rhs' r hok
    subst hr
    subst hrhs
    refine ⟨rfl, ?_⟩
    simp only [List.length_take, unflatten_length]
    omega

/-- Witness for C7 at a concrete instance: the solution is the two leading
entries of the (unchanged-by-the-trivial-solver) right-hand-side buffer. -/
theorem c7_solution_is_leading_slice_witness :
    ([7, 8] : List Int) = bVec3.data.take aMat32.shape1
    ∧ ([7, 8] : List Int).length = aMat32.shape1 :=
  (c7_solution_is_leading_slice Int Int).1 (constSolver [5, 3] 2) aMat32 bVec3
    aMat32 bVec3
    { solution := [7, 8], singular_values := [5, 3], rank := 2,
      residual_sum_of_squares := some 81 }
    (by rfl)

/-- C9: result extraction is in bounds only when `n ≤ m`. The solution slice
`0..n` succeeds exactly when `n` is at most the buffer's length; when the
system is under-determined (`n > m`) and the solver has overwritten the
caller's `m`-row buffer in place (length preserved), the vector-case
extraction aborts with the out-of-bounds slice panic, and the matrix-case
solve can never return a result. The residual slice `n..` only runs under the
`m ≥ n` guard, so the extraction step as a whole is total only when
`n ≤ m`. -/
theorem c9_extraction_requires_m_ge_n (R E : Type) [CommRing E] :
    (∀ (n : Nat) (l : List E), (∃ s, slice_to n l = .ok s) ↔ n ≤ l.length)
    ∧ (∀ (solver : SolverIx1 R E) (a : MatState E) (rhs : VecState E)
        (l : MatrixLayout) (out : LeastSquaresOutput R) (aBuf' bBuf' : List E),
        a.layoutTag = some l → a.allocated = true → rhs.contiguous = true →
        solver l (a.flatBuf l) rhs.data = .ok (out, aBuf', bBuf') →
        bBuf'.length = rhs.data.length →
        rhs.data.length = a.shape0 →
        a.shape0 < a.shape1 →
        least_squares_in_place_ix1 solver a rhs = .error .SlicePanic)
    ∧ (∀ (kernel : KernelIx2 R E) (a rhs : MatState E)
        (z : MatState E × MatState E × LeastSquaresResultIx2 R E),
        rhs.shape0 = a.shape0 → a.shape0 < a.shape1 →
        least_squares_in_place_ix2 kernel a rhs ≠ .ok z) := by
  refine ⟨?_, ?_, ?_⟩
  · intro n l
    by_cases hn : n ≤ l.length <;> simp [slice_to, hn]
  · intro solver a rhs l out aBuf' bBuf' hl ha hc hsolve hlen hrlen hmn
    unfold least_squares_in_place_ix1 ix1_solver_args MatState.layout
      MatState.as_allocated_mut VecState.as_slice_memory_order_mut
    simp only [hl, ha, hc, if_true, Option.getD_some, hsolve]
    unfold slice_to
    rw [if_neg (by omega)]
  · intro kernel a rhs z hshape hmn hok
    obtain ⟨a', rhs', r⟩ := z
    obtain ⟨al, rl, aB, bB, out, aB', bB', -, -, hle, -, -, -⟩ :=
      least_squares_in_place_ix2_ok kernel a rhs a' rhs' r hok
    omega

/-- Witness for C9 at a concrete under-determined instance (`m = 2 < n = 3`):
the in-place vector solve aborts with the slice panic. -/
theorem c9_extraction_requires_m_ge_n_witness :
    least_squares_in_place_ix1 (constSolver [] 2) aMat23 bVec2 =
      .error .SlicePanic :=
  (c9_extraction_requires_m_ge_n Int Int).2.1 (constSolver [] 2) aMat23 bVec2 .C
    { singular_values := [], rank := 2 } (aMat23.flatBuf .C) bVec2.data
    rfl rfl rfl (by rfl) rfl rfl (by decide)

/-- C10: for an exactly-determined full-rank solve (`m = n` and
`rank = n`, with the shape in the `i32` range), the residual is present and
exactly zero — the scalar `0` in the vector case and the all-zero length-`k`
vector in the matrix case — for every buffer content, because the summed
slice of rows `n..m` is empty. -/
theorem c10_exactly_determined_zero_residual (E : Type) [CommRing E] :
    (∀ (n : Nat) (rank : Int) (b : VecState E),
        rank = n → (n : Int) < 2 ^ 31 → b.data.length = n →
        compute_residual_scalar n n rank b = some 0)
    ∧ (∀ (n : Nat) (rank : Int) (b : MatState E),
        rank = n → (n : Int) < 2 ^ 31 → b.rowsData.length = n →
        compute_residual_array1 n n rank b = some (List.replicate b.shape1 0)) := by
  have hcast : ∀ (n : Nat), (n : Int) < 2 ^ 31 → i32_as_usize n = n := by
    intro n hn
    unfold i32_as_usize
    rw [Int.emod_eq_of_lt (by omega) (lt_trans hn (by norm_num))]
    omega
  constructor
  · intro n rank b hrank hn hlen
    subst hrank
    unfold compute_residual_scalar
    rw [if_neg (by simp [hcast n hn])]
    rw [List.drop_eq_nil_of_le (by omega)]
    simp
  · intro n rank b hrank hn hlen
    subst hrank
    unfold compute_residual_array1
    rw [if_neg (by simp [hcast n hn])]
    rw [List.drop_eq_nil_of_le (by omega)]
    simp [sum_axis0_nil]

/-- Witness for C10 at a concrete `2 × 2` full-rank instance: the residual is
present and equal to zero. -/
theorem c10_exactly_determined_zero_residual_witness :
    compute_residual_scalar 2 2 2 ({ data := [4, 5], contiguous := true } : VecState Int)
      = some 0 :=
  (c10_exactly_determined_zero_residual Int).1 2 2
    { data := [4, 5], contiguous := true } (by decide) (by decide) (by decide)

end NdLinalg
